import Mathlib

/-!
Shallow embedding of the audit-trail subsystem of the universal calculator
repository: the persistence helpers and audit store of
`src/calculator_frontend/src/services/StorageService.js` and the e-signature
helpers of `src/calculator_frontend/src/services/EsignService.js`.

Modelling conventions:
* JavaScript values flowing through `JSON.stringify` are modelled by the
  inductive `Json` below (numbers as `Int`; the code never produces
  fractional numbers on these paths).
* Machine arithmetic in the FNV-1a hash is modelled on `Nat` with explicit
  `% 2 ^ 32`; the JS `<<`/`^`/`>>> 0` chain reduces to multiplication by
  16777619 modulo `2 ^ 32` (the intermediate float sums are exact, and both
  `ToInt32` and `ToUint32` reduce modulo `2 ^ 32`).
* Nondeterministic inputs (generated ids, `new Date()`, `navigator` fields)
  are passed in explicitly through an `AuditEnv` record.
* Throwing code is modelled with `Except`; functions that mutate the
  persisted log return the post-call log explicitly.
-/

/-- Model of a JavaScript JSON value as produced/consumed by
`JSON.stringify`/`JSON.parse` in the audit subsystem. -/
inductive Json where
  | null : Json
  | bool (b : Bool) : Json
  | num (n : Int) : Json
  | str (s : String) : Json
  | arr (elems : List Json) : Json
  | obj (fields : List (String × Json)) : Json
deriving Repr

/-- Escaping of a single character inside a JSON string literal, as
`JSON.stringify` performs it (quote, backslash and common control chars). -/
def jsonEscapeChar (c : Char) : String :=
  if c = '"' then "\\\""
  else if c = '\\' then "\\\\"
  else if c = '\n' then "\\n"
  else if c = '\r' then "\\r"
  else if c = '\t' then "\\t"
  else String.singleton c

/-- Escaping of a whole string for inclusion in a JSON string literal. -/
def jsonEscape (s : String) : String :=
  String.join (s.toList.map jsonEscapeChar)

mutual

/-- Model of compact `JSON.stringify(value)` on the `Json` model. -/
def Json.stringify : Json → String
  | .null => "null"
  | .bool true => "true"
  | .bool false => "false"
  | .num n => toString n
  | .str s => "\"" ++ jsonEscape s ++ "\""
  | .arr xs => "[" ++ Json.stringifyArr xs ++ "]"
  | .obj fs => "\x7b" ++ Json.stringifyObj fs ++ "\x7d"

/-- Comma-separated serialization of array elements. -/
def Json.stringifyArr : List Json → String
  | [] => ""
  | [x] => Json.stringify x
  | x :: y :: xs => Json.stringify x ++ "," ++ Json.stringifyArr (y :: xs)

/-- Comma-separated serialization of object fields. -/
def Json.stringifyObj : List (String × Json) → String
  | [] => ""
  | [(k, v)] => "\"" ++ jsonEscape k ++ "\":" ++ Json.stringify v
  | (k, v) :: f :: fs =>
      "\"" ++ jsonEscape k ++ "\":" ++ Json.stringify v ++ "," ++ Json.stringifyObj (f :: fs)

end

/-- Run of `n` spaces, used by the pretty printer. -/
def spacesOf (n : Nat) : String :=
  String.mk (List.replicate n ' ')

mutual

/-- Model of pretty `JSON.stringify(value, null, 2)` at an ambient
indentation depth `ind` (in spaces). -/
def Json.stringifyPretty (ind : Nat) : Json → String
  | .arr [] => "[]"
  | .arr (x :: xs) =>
      "[\n" ++ Json.stringifyPrettyArr (ind + 2) (x :: xs) ++ "\n" ++ spacesOf ind ++ "]"
  | .obj [] => "\x7b\x7d"
  | .obj (f :: fs) =>
      "\x7b\n" ++ Json.stringifyPrettyObj (ind + 2) (f :: fs) ++ "\n" ++ spacesOf ind ++ "\x7d"
  | v => Json.stringify v

/-- One pretty-printed line per array element, comma-joined. -/
def Json.stringifyPrettyArr (ind : Nat) : List Json → String
  | [] => ""
  | [x] => spacesOf ind ++ Json.stringifyPretty ind x
  | x :: y :: xs =>
      spacesOf ind ++ Json.stringifyPretty ind x ++ ",\n" ++ Json.stringifyPrettyArr ind (y :: xs)

/-- One pretty-printed line per object field, comma-joined. -/
def Json.stringifyPrettyObj (ind : Nat) : List (String × Json) → String
  | [] => ""
  | [(k, v)] => spacesOf ind ++ "\"" ++ jsonEscape k ++ "\": " ++ Json.stringifyPretty ind v
  | (k, v) :: f :: fs =>
      spacesOf ind ++ "\"" ++ jsonEscape k ++ "\": " ++ Json.stringifyPretty ind v ++ ",\n" ++
        Json.stringifyPrettyObj ind (f :: fs)

end

/-- Model of JavaScript `String.prototype.trim`: drop leading and trailing
whitespace characters. (Defined structurally on the character list so that
it evaluates by kernel reduction.) -/
def jsTrim (s : String) : String :=
  String.mk (((s.toList.dropWhile Char.isWhitespace).reverse.dropWhile Char.isWhitespace).reverse)

/-- Model of `String.prototype.toUpperCase` (ASCII range, which covers the
action-type vocabulary of the audit store). -/
def jsToUpper (s : String) : String :=
  String.mk (s.toList.map Char.toUpper)

/-- Model of `String.prototype.toLowerCase` (ASCII range). -/
def jsToLower (s : String) : String :=
  String.mk (s.toList.map Char.toLower)

/-- First value bound to key `k` in an association list of object fields
(JavaScript property lookup on our object model). -/
def objLookup (k : String) : List (String × Json) → Option Json
  | [] => none
  | (k', v) :: rest => if k' = k then some v else objLookup k rest

/-- Model of the object spread `\x7b ...base, ...extra \x7d`: keys of `base` keep
their position but take the value from `extra` when `extra` also binds them;
keys only in `extra` are appended in order. -/
def objMerge (base extra : List (String × Json)) : List (String × Json) :=
  (base.map fun kv =>
    match objLookup kv.1 extra with
    | some v => (kv.1, v)
    | none => kv) ++
  extra.filter fun kv => (objLookup kv.1 base).isNone

/-! ### EsignService.js -/

/-- Embedding of `fnv1a32` from `EsignService.js`. The JS body XORs in the
UTF-16 code unit and then adds the shift cascade
`(h<<1)+(h<<4)+(h<<7)+(h<<8)+(h<<24)`; modulo `2 ^ 32` this is exactly
multiplication by the FNV prime 16777619, and the `>>> 0` at the end reduces
the final value modulo `2 ^ 32`, so we keep the state reduced throughout.
Characters are taken as code points, which agrees with `charCodeAt` on the
basic multilingual plane. -/
def fnv1a32 (input : String) : Nat :=
  input.toList.foldl
    (fun hash c =>
      let hx := (hash ^^^ c.toNat) % 4294967296
      (hx + (hx * 2 + hx * 16 + hx * 128 + hx * 256 + hx * 16777216)) % 4294967296)
    2166136261

/-- Embedding of `(hash >>> 0).toString(16).padStart(8, "0")`: lowercase hex,
left-padded with zeros to width 8. -/
def toHex8 (n : Nat) : String :=
  let s := String.mk (Nat.toDigits 16 n)
  String.mk (List.replicate (8 - s.length) '0') ++ s

/-- Embedding of `computeSignatureHash` from `EsignService.js`: hash of the
pipe-joined tuple `signerId|reason|comment|isoTimestamp`. -/
def computeSignatureHash (signerId isoTimestamp reason comment : String) : String :=
  toHex8 (fnv1a32 (signerId ++ "|" ++ reason ++ "|" ++ comment ++ "|" ++ isoTimestamp))

/-- Result record of `createSignaturePayload`. -/
structure SignaturePayload where
  signerId : String
  isoTimestamp : String
  signatureHash : String
  reason : Option String
  comment : Option String
deriving Repr, DecidableEq

/-- Embedding of `createSignaturePayload` from `EsignService.js`. The
current instant `new Date().toISOString()` is passed in as `now`; `reason`
and `comment` are `Option String` modelling possibly-undefined arguments.
`reason || ""` maps both `undefined` and `""` to `""` for hashing, while
`reason ? String(reason) : null` stores a non-empty string or null. -/
def createSignaturePayload (now userId : String) (reason comment : Option String) :
    Except String SignaturePayload :=
  let signerId := jsTrim userId
  if signerId = "" then .error "Invalid signerId"
  else
    let hash := computeSignatureHash signerId now (reason.getD "") (comment.getD "")
    .ok
      { signerId := signerId
        isoTimestamp := now
        signatureHash := hash
        reason := match reason with
          | some s => if s = "" then none else some s
          | none => none
        comment := match comment with
          | some s => if s = "" then none else some s
          | none => none }

/-! ### StorageService.js — persistence helpers -/

/-- Embedding of `readRaw` from `StorageService.js` over an explicit
key/value store (the durable store and the in-memory fallback are both
string-keyed string maps; which one serves a request is unobservable to
callers, so one association list models the backing store). -/
def readRaw (store : List (String × String)) (key : String) : Option String :=
  match store with
  | [] => none
  | (k, v) :: rest => if k = key then some v else readRaw rest key

/-- Embedding of `safeParse` from `StorageService.js`. The host primitive
`JSON.parse` is passed in as `parse`; `none` models a parse exception
(the `catch` branch), so the function is total and never raises. -/
def safeParse (parse : String → Option Json) (value : Option String) (fallback : Json) : Json :=
  match value with
  | none => fallback
  | some s =>
    match parse s with
    | some v => v
    | none => fallback

/-- Embedding of `getJSON` from `StorageService.js`: read the raw string
for `key` and parse it safely, falling back on `fallback`. -/
def getJSON (parse : String → Option Json) (store : List (String × String))
    (key : String) (fallback : Json) : Json :=
  safeParse parse (readRaw store key) fallback

/-! ### StorageService.js — audit store -/

/-- Environment facts consumed by one audit-store call: the two generated
ids (`generateId("audit")`, `generateId("corr")`), the current instant
`new Date().toISOString()`, and the `buildMetadata` environment fields. -/
structure AuditEnv where
  auditId : String
  corrId : String
  now : String
  appVersion : String
  userAgent : String
  platform : String
deriving Repr

/-- Embedding of the frozen `ACTION_TYPES` constant. -/
def ACTION_TYPES : List String := ["CREATE", "READ", "UPDATE", "DELETE"]

/-- Embedding of `buildMetadata`: environment block merged under
caller-supplied metadata. -/
def buildMetadata (env : AuditEnv) : List (String × Json) :=
  [("appVersion", Json.str env.appVersion),
   ("userAgent", Json.str env.userAgent),
   ("platform", Json.str env.platform)]

/-- The `options` argument of `logAction`; absent properties are `none`. -/
structure LogOptions where
  before : Option Json
  after : Option Json
  reason : Option String
  correlationId : Option String
  metadata : Option (List (String × Json))
deriving Repr

/-- Options object with every property absent (the default `\x7b\x7d`). -/
def LogOptions.empty : LogOptions :=
  { before := none, after := none, reason := none, correlationId := none, metadata := none }

/-- One audit record, with the fields assigned by `logAction`. -/
structure AuditEntry where
  id : String
  userId : String
  timestamp : String
  actionType : String
  entity : String
  details : Json
  before : Json
  after : Json
  reason : Option String
  correlationId : String
  metadata : List (String × Json)
deriving Repr

/-- Embedding of the `details` normalization in `logAction`:
`details && typeof details === "object" ? \x7b ...details \x7d : \x7b value: String(details ?? "") \x7d`.
Objects and arrays are spread (an array spreads to index-keyed fields);
primitives are wrapped under `value` via the JS `String` conversion, with
`null` first replaced by `""`. -/
def normalizeDetails : Json → Json
  | .obj fs => .obj fs
  | .arr xs => .obj (((List.range xs.length).zip xs).map fun p => (toString p.1, p.2))
  | .null => .obj [("value", Json.str "")]
  | .str s => .obj [("value", Json.str s)]
  | .num n => .obj [("value", Json.str (toString n))]
  | .bool b => .obj [("value", Json.str (if b then "true" else "false"))]

/-- The entry object literal built by `logAction` once validation has
passed; `uid`, `act`, `ent` and `reason` are the already-normalized
values. -/
def buildEntry (env : AuditEnv) (uid act ent : String) (details : Json)
    (options : LogOptions) (reason : Option String) : AuditEntry :=
  { id := env.auditId
    userId := uid
    timestamp := env.now
    actionType := act
    entity := ent
    details := normalizeDetails details
    before := options.before.getD Json.null
    after := options.after.getD Json.null
    reason := reason
    correlationId := match options.correlationId with
      | some c => if c = "" then env.corrId else c
      | none => env.corrId
    metadata := objMerge (buildMetadata env) (options.metadata.getD []) }

/-- Return value and post-call persisted log of one `logAction` call. -/
structure LogActionResult where
  result : Except String AuditEntry
  log : List AuditEntry
deriving Repr

/-- Embedding of `logAction` from `StorageService.js`. Arguments are
trimmed (and the action type uppercased) exactly as in the source; each
`throw` becomes an `error` result leaving the persisted log unchanged; on
success the entry is appended and the whole log persisted. -/
def logAction (env : AuditEnv) (log : List AuditEntry) (userId actionType entity : String)
    (details : Json) (options : LogOptions) : LogActionResult :=
  let uid := jsTrim userId
  let act := jsToUpper (jsTrim actionType)
  let ent := jsTrim entity
  if uid = "" then
    { result := .error "Audit logAction: userId is required", log := log }
  else if act ∈ ACTION_TYPES then
    if ent = "" then
      { result := .error "Audit logAction: entity is required", log := log }
    else
      let reason := options.reason.map jsTrim
      if act = "DELETE" ∧ reason.getD "" = "" then
        { result := .error "Audit logAction: reason is required for destructive actions (DELETE).",
          log := log }
      else
        let entry := buildEntry env uid act ent details options reason
        { result := .ok entry, log := log ++ [entry] }
  else
    { result := .error ("Audit logAction: unsupported actionType \"" ++ act ++ "\""), log := log }

/-- Serialization of an `AuditEntry` back to a JSON object, with the
field order of the object literal in `logAction` (used by the `text`
filter and the JSON export). -/
def entryToJson (e : AuditEntry) : Json :=
  .obj [("id", .str e.id), ("userId", .str e.userId), ("timestamp", .str e.timestamp),
        ("actionType", .str e.actionType), ("entity", .str e.entity), ("details", e.details),
        ("before", e.before), ("after", e.after),
        ("reason", match e.reason with | some r => .str r | none => .null),
        ("correlationId", .str e.correlationId), ("metadata", .obj e.metadata)]

/-- The `filters` object accepted by `getLogs`. `userId`/`actionType`/
`entity` are already in `toStringArray` form (a single value becomes a
singleton list, an absent filter the empty list); `fromBound`/`toBound`
are the raw `from`/`to` strings. -/
structure LogFilters where
  userId : List String
  actionType : List String
  entity : List String
  fromBound : Option String
  toBound : Option String
  correlationId : Option String
  text : Option String
deriving Repr

/-- Filters object with every filter absent. -/
def LogFilters.empty : LogFilters :=
  { userId := [], actionType := [], entity := [], fromBound := none, toBound := none,
    correlationId := none, text := none }

/-- Value of the JS variable `fromTime`/`toTime`: outer `none` models
`undefined` (filter absent or the empty string), `some none` models `NaN`
(an unparseable date), `some (some t)` a finite time value. `dateParse`
models `new Date(s).getTime()` / `Date.parse(s)` with `none` for `NaN`. -/
def timeOf (dateParse : String → Option Int) : Option String → Option (Option Int)
  | some s => if s = "" then none else some (dateParse s)
  | none => none

/-- JS truthiness of a time variable: `undefined`, `NaN` and `0` are falsy. -/
def timeTruthy : Option (Option Int) → Bool
  | some (some t) => t != 0
  | _ => false

/-- Value of `Number.isFinite(x) && x` as used for the bound checks:
`some t` exactly when the variable holds a finite number. -/
def timeFinite : Option (Option Int) → Option Int
  | some (some t) => some t
  | _ => none

/-- Check whether the first character list starts the second. -/
def listStartsWith : List Char → List Char → Bool
  | [], _ => true
  | _ :: _, [] => false
  | a :: as, b :: bs => a == b && listStartsWith as bs

/-- Check whether `needle` occurs contiguously inside `hay`. -/
def listOccursIn (needle : List Char) : List Char → Bool
  | [] => listStartsWith needle []
  | c :: cs => listStartsWith needle (c :: cs) || listOccursIn needle cs

/-- Model of JavaScript `hay.includes(needle)` on strings. -/
def jsIncludes (hay needle : String) : Bool :=
  listOccursIn needle.toList hay.toList

/-- The `text` filter tail of the entry predicate: a lowercased serialized
entry must contain the (already trimmed and lowercased) search string.
An empty search string was never assigned, so it passes. -/
def textPass (text : Option String) (entry : AuditEntry) : Bool :=
  match text with
  | some tx =>
    if tx == "" then true
    else jsIncludes (jsToLower (Json.stringify (entryToJson entry))) tx
  | none => true

/-- The correlation-id conjunct of the filter predicate: skipped when the
(trimmed) supplied id is absent or empty, otherwise an exact comparison. -/
def cidPass (cid : Option String) (entry : AuditEntry) : Bool :=
  match cid with
  | some c => (c == "") || (entry.correlationId == c)
  | none => true

/-- Embedding of the per-entry filter predicate inside `getLogs`, after
the filter values have been normalized. Each early `return false` of the
source corresponds to one conjunct here (an entry passes exactly when no
rejecting branch fires): the three membership checks, the correlation-id
check, the time-bound checks — consulted only when `fromTime || toTime`
is truthy, and each bound only when it is a finite number — and the text
search. -/
def matchesFilters (dateParse : String → Option Int)
    (userIds actionTypes entities : List String) (cid : Option String)
    (text : Option String) (fromTime toTime : Option (Option Int)) (entry : AuditEntry) : Bool :=
  (userIds.isEmpty || userIds.contains entry.userId) &&
  (actionTypes.isEmpty || actionTypes.contains entry.actionType) &&
  (entities.isEmpty || entities.contains entry.entity) &&
  cidPass cid entry &&
  (if timeTruthy fromTime || timeTruthy toTime then
    (match timeFinite fromTime, dateParse entry.timestamp with
      | some ft, some tv => !(decide (tv < ft))
      | _, _ => true) &&
    (match timeFinite toTime, dateParse entry.timestamp with
      | some tt, some tv => !(decide (tt < tv))
      | _, _ => true)
   else true) &&
  textPass text entry

/-- The filtered set computed by `getLogs`: filter values are trimmed
(action types additionally uppercased) and blank values dropped, the
`correlationId` trimmed, the search text trimmed and lowercased, and the
time bounds parsed; then the log is filtered by `matchesFilters`. -/
def getLogsFiltered (dateParse : String → Option Int) (log : List AuditEntry)
    (filters : LogFilters) : List AuditEntry :=
  let userIds := (filters.userId.map jsTrim).filter fun s => !(s == "")
  let actionTypes := (filters.actionType.map fun s => jsToUpper (jsTrim s)).filter fun s => !(s == "")
  let entities := (filters.entity.map jsTrim).filter fun s => !(s == "")
  let cid := filters.correlationId.map jsTrim
  let text := filters.text.map fun s => jsToLower (jsTrim s)
  let fromTime := timeOf dateParse filters.fromBound
  let toTime := timeOf dateParse filters.toBound
  log.filter (matchesFilters dateParse userIds actionTypes entities cid text fromTime toTime)

/-- Return value of `getLogs`. -/
structure GetLogsResult where
  items : List AuditEntry
  total : Nat
  page : Nat
  pageSize : Nat
  totalPages : Nat
deriving Repr

/-- Embedding of `Math.max(1, Math.floor(params.page || 1))` (and the same
with default 20 for `pageSize`): an absent or zero value becomes the
default, and the result is clamped to at least 1. `Math.floor` is the
identity on the integer model. -/
def coercePage (v : Option Int) (dflt : Int) : Nat :=
  let x : Int := match v with
    | none => dflt
    | some n => if n = 0 then dflt else n
  (max 1 x).toNat

/-- Embedding of `getLogs` from `StorageService.js`. `dateParse` models the
host date parser used both for the `from`/`to` bounds and for entry
timestamps; `page?`/`pageSize?` model possibly-absent numeric params. -/
def getLogs (dateParse : String → Option Int) (log : List AuditEntry)
    (page? pageSize? : Option Int) (filters : LogFilters) : GetLogsResult :=
  let page := coercePage page? 1
  let pageSize := coercePage pageSize? 20
  let filtered := getLogsFiltered dateParse log filters
  let total := filtered.length
  let totalPages := max 1 ((total + pageSize - 1) / pageSize)
  let start := (page - 1) * pageSize
  let items := (filtered.drop start).take pageSize
  { items := items, total := total, page := page, pageSize := pageSize, totalPages := totalPages }

/-- Return value of `exportLogs`. -/
structure ExportResult where
  filename : String
  mimeType : String
  content : String
deriving Repr, DecidableEq

/-- The fixed CSV header columns of the CSV export. -/
def CSV_HEADERS : List String :=
  ["id", "timestamp", "userId", "actionType", "entity", "reason", "correlationId",
   "details", "before", "after", "metadata"]

/-- Embedding of the CSV cell mapper: `String(v ?? "")` double-quote
escaped and wrapped in double quotes. -/
def csvEscapeCell (s : String) : String :=
  "\"" ++ String.mk (s.toList.foldr (fun c acc => if c = '"' then '"' :: '"' :: acc else c :: acc) []) ++ "\""

/-- The eleven raw cell values of one CSV row, before quoting: plain
string fields, `reason ?? ""`, and the JSON-stringified nested values. -/
def csvCells (e : AuditEntry) : List String :=
  [e.id, e.timestamp, e.userId, e.actionType, e.entity, e.reason.getD "", e.correlationId,
   Json.stringify e.details, Json.stringify e.before, Json.stringify e.after,
   Json.stringify (Json.obj e.metadata)]

/-- One CSV data row: quoted cells joined by commas. -/
def csvRow (e : AuditEntry) : String :=
  String.intercalate "," ((csvCells e).map csvEscapeCell)

/-- Embedding of the export timestamp mangling
`new Date().toISOString().replace(/[:.]/g, "-")`. -/
def tsSafe (now : String) : String :=
  String.mk (now.toList.map fun c => if c = ':' ∨ c = '.' then '-' else c)

/-- Embedding of `exportLogs` from `StorageService.js`: pretty JSON for
`"json"`, header plus one quoted row per entry for `"csv"`, and an error
for any other format string. -/
def exportLogs (now : String) (log : List AuditEntry) (format : String) :
    Except String ExportResult :=
  let ts := tsSafe now
  if format = "json" then
    .ok { filename := "audit-export-" ++ ts ++ ".json"
          mimeType := "application/json"
          content := Json.stringifyPretty 0 (Json.arr (log.map entryToJson)) }
  else if format = "csv" then
    let rows := String.intercalate "," CSV_HEADERS :: log.map csvRow
    .ok { filename := "audit-export-" ++ ts ++ ".csv"
          mimeType := "text/csv"
          content := String.intercalate "\n" rows }
  else .error ("Unsupported export format: " ++ format)

/-- The `eSign` argument of `clearLogs`. -/
structure ESign where
  username : String
  password : String
deriving Repr

/-- Return value of a successful `clearLogs`. -/
structure ClearResult where
  cleared : Nat
  timestamp : String
deriving Repr, DecidableEq

/-- Return value and post-call persisted log of one `clearLogs` call. -/
structure ClearLogsResult where
  result : Except String ClearResult
  log : List AuditEntry
deriving Repr

/-- Embedding of `clearLogs` from `StorageService.js`. The username is
trimmed when truthy (`eSign?.username ? String(eSign.username).trim() : ""`)
but the password is taken verbatim when truthy; a missing signature object
yields empty strings. On success the stored log is removed and re-set to
the empty array. -/
def clearLogs (now : String) (log : List AuditEntry) (eSign : Option ESign) : ClearLogsResult :=
  let u := match eSign with
    | some s => if s.username = "" then "" else jsTrim s.username
    | none => ""
  let p := match eSign with
    | some s => if s.password = "" then "" else s.password
    | none => ""
  if u = "" ∨ p = "" then
    { result := .error "Electronic signature required (username and password).", log := log }
  else
    { result := .ok { cleared := log.length, timestamp := now }, log := [] }

/-- An Error-like JavaScript value consumed by `recordError`: its `name`,
`message` and `stack` properties (each possibly undefined) and its
`String(error)` conversion. -/
structure JsError where
  name : Option String
  message : Option String
  stack : Option String
  str : String
deriving Repr

/-- The `context` argument of `recordError`. -/
structure ErrorContext where
  userId : Option String
  correlationId : Option String
  reason : Option String
  entity : Option String
  extra : Option (List (String × Json))
deriving Repr

/-- Return value and post-call persisted log of one `recordError` call. -/
structure RecordErrorResult where
  result : Option AuditEntry
  log : List AuditEntry
deriving Repr

/-- Embedding of `x || dflt` on a possibly-undefined string. -/
def jsOrDefault (v : Option String) (dflt : String) : String :=
  match v with
  | some s => if s = "" then dflt else s
  | none => dflt

/-- The `message` detail value: `error?.message ?? String(error ?? "unknown error")`. -/
def errMessageOf (error : Option JsError) : String :=
  match error with
  | none => "unknown error"
  | some err =>
    match err.message with
    | some m => m
    | none => err.str

/-- The three error-fact fields placed first in the diagnostic `details`
object of `recordError`: `name`, `message` and `stack`. -/
def errDetailsBase (error : Option JsError) : List (String × Json) :=
  [("name", Json.str ((error.bind (·.name)).getD "Error")),
   ("message", Json.str (errMessageOf error)),
   ("stack", match error.bind (·.stack) with
     | some s => Json.str s
     | none => Json.null)]

/-- Embedding of `recordError` from `StorageService.js`: builds the
diagnostic `details` object (error facts first, then the spread of
`context.extra`) and delegates to `logAction` with action type `"READ"`;
any thrown validation error is caught and turned into `none`, leaving the
persisted log unchanged. -/
def recordError (env : AuditEnv) (log : List AuditEntry) (error : Option JsError)
    (context : Option ErrorContext) : RecordErrorResult :=
  let userId := jsOrDefault (context.bind (·.userId)) "system"
  let entity := jsOrDefault (context.bind (·.entity)) "error"
  let extra := (context.bind (·.extra)).getD []
  let details := Json.obj (objMerge (errDetailsBase error) extra)
  let options : LogOptions :=
    { before := none, after := none,
      reason := some (jsOrDefault (context.bind (·.reason)) "Technical error captured"),
      correlationId := context.bind (·.correlationId), metadata := none }
  let r := logAction env log userId "READ" entity details options
  match r.result with
  | .ok e => { result := some e, log := r.log }
  | .error _ => { result := none, log := log }

/-! ### Test fixtures (concrete inputs for witnesses and counterexamples) -/

/-- Concrete environment for one audit call. -/
def testEnv : AuditEnv :=
  { auditId := "audit_1", corrId := "corr_1", now := "2024-01-01T00:00:00.000Z",
    appVersion := "0.1.0", userAgent := "test-agent", platform := "test" }

/-- Options object supplying only a reason. -/
def reasonOnly (r : String) : LogOptions :=
  { LogOptions.empty with reason := some r }

/-- A concrete well-formed audit entry. -/
def testEntry : AuditEntry :=
  { id := "audit_1", userId := "u1", timestamp := "2024-01-01T00:00:00.000Z",
    actionType := "CREATE", entity := "session", details := Json.obj [],
    before := Json.null, after := Json.null, reason := none,
    correlationId := "corr_1", metadata := [] }

/-- A concrete entry whose timestamp lies one second before the epoch. -/
def testEntryOld : AuditEntry :=
  { testEntry with id := "audit_0", timestamp := "1969-12-31T23:59:59.000Z" }

/-- Concrete stand-in for the host date parser, agreeing with JavaScript
`Date.parse` on the ISO strings used by the witnesses ( `none` models an
invalid date / `NaN`). -/
def dateParseTest : String → Option Int := fun s =>
  if s = "1970-01-01T00:00:00.000Z" then some 0
  else if s = "1969-12-31T23:59:59.000Z" then some (-1000)
  else if s = "2024-01-01T00:00:00.000Z" then some 1704067200000
  else none

/-! ### C8 — getJSON falls back on missing or malformed data -/

/-- C8: for every key and fallback, the persistence `get` operation
(`getJSON`) is total (it never raises), and it returns the supplied
fallback both when the stored value is missing and when the stored value
fails to parse as JSON. -/
theorem getJSON_fallback_on_missing_or_invalid
    (parse : String → Option Json) (store : List (String × String))
    (key : String) (fallback : Json) (s : String) :
    (readRaw store key = none → getJSON parse store key fallback = fallback) ∧
    (readRaw store key = some s → parse s = none → getJSON parse store key fallback = fallback) := by
  constructor
  · intro h
    simp [getJSON, safeParse, h]
  · intro h hp
    simp [getJSON, safeParse, h, hp]

/-- C8 witness: a store holding a syntactically invalid value under the
audit key, with a parser rejecting it, yields the fallback. -/
theorem getJSON_fallback_on_missing_or_invalid_inst :
    (readRaw [("auditTrail", "not-json")] "missing" = none →
      getJSON (fun _ => none) [("auditTrail", "not-json")] "missing" (Json.arr []) = Json.arr []) ∧
    (readRaw [("auditTrail", "not-json")] "missing" = some "not-json" →
      (fun _ => (none : Option Json)) "not-json" = none →
      getJSON (fun _ => none) [("auditTrail", "not-json")] "missing" (Json.arr []) = Json.arr []) :=
  getJSON_fallback_on_missing_or_invalid (fun _ => none) [("auditTrail", "not-json")]
    "missing" (Json.arr []) "not-json"

/-! ### C1 — logAction validation gate -/

/-- C1 counterexample: the claim rejects any `actionType` outside the four
enum values, but the lowercase string `"delete"` is not one of the four
values and the call nevertheless succeeds (the code uppercases before the
membership test) and appends an entry. -/
theorem logAction_lowercase_delete_cex :
    ("delete" ∉ ACTION_TYPES) ∧
    (logAction testEnv [] "u1" "delete" "session" (Json.obj []) (reasonOnly "cleanup")).result =
      .ok (buildEntry testEnv "u1" "DELETE" "session" (Json.obj [])
        (reasonOnly "cleanup") (some "cleanup")) ∧
    (logAction testEnv [] "u1" "delete" "session" (Json.obj []) (reasonOnly "cleanup")).log.length
      = 1 := by
  refine ⟨by decide, rfl, rfl⟩

/-- Full case analysis of the `logAction` validation gate (shared by the
claims about `logAction`). -/
lemma logAction_gate_aux (env : AuditEnv) (log : List AuditEntry)
    (userId actionType entity : String) (details : Json) (opts : LogOptions) :
    ((jsTrim userId = "" ∨ jsToUpper (jsTrim actionType) ∉ ACTION_TYPES ∨ jsTrim entity = "" ∨
        (jsToUpper (jsTrim actionType) = "DELETE" ∧ (opts.reason.map jsTrim).getD "" = "")) →
      (∃ msg, (logAction env log userId actionType entity details opts).result = .error msg) ∧
      (logAction env log userId actionType entity details opts).log = log) ∧
    (jsTrim userId ≠ "" → jsToUpper (jsTrim actionType) ∈ ACTION_TYPES → jsTrim entity ≠ "" →
      ¬(jsToUpper (jsTrim actionType) = "DELETE" ∧ (opts.reason.map jsTrim).getD "" = "") →
      (logAction env log userId actionType entity details opts).result =
        .ok (buildEntry env (jsTrim userId) (jsToUpper (jsTrim actionType)) (jsTrim entity)
          details opts (opts.reason.map jsTrim)) ∧
      (logAction env log userId actionType entity details opts).log =
        log ++ [buildEntry env (jsTrim userId) (jsToUpper (jsTrim actionType)) (jsTrim entity)
          details opts (opts.reason.map jsTrim)]) := by
  by_cases h1 : jsTrim userId = "" <;>
  by_cases h2 : jsToUpper (jsTrim actionType) ∈ ACTION_TYPES <;>
  by_cases h3 : jsTrim entity = "" <;>
  by_cases h4 : jsToUpper (jsTrim actionType) = "DELETE" ∧ (opts.reason.map jsTrim).getD "" = "" <;>
    simp [logAction, ACTION_TYPES, h1, h2, h3, h4] <;>
    simp [ACTION_TYPES] at h2
  all_goals
    first
    | (rw [if_pos h2]; refine ⟨?_, ?_⟩ <;> (try simp) <;> (try tauto))
    | (rw [if_neg (by tauto)]; refine ⟨?_, ?_⟩ <;> (try simp) <;> (try tauto))

/-- C1 (amended): a `logAction` call fails with a validation error and
leaves the persisted log unchanged exactly when the trimmed `userId` or
`entity` is blank, the trimmed uppercased `actionType` is not one of the
four enum values, or the normalized action is `DELETE` with a blank
trimmed reason; otherwise it succeeds, returns the built entry, and the
persisted log is the old log with that entry appended at the end. -/
theorem logAction_validation_gate (env : AuditEnv) (log : List AuditEntry)
    (userId actionType entity : String) (details : Json) (opts : LogOptions) :
    ((jsTrim userId = "" ∨ jsToUpper (jsTrim actionType) ∉ ACTION_TYPES ∨ jsTrim entity = "" ∨
        (jsToUpper (jsTrim actionType) = "DELETE" ∧ (opts.reason.map jsTrim).getD "" = "")) →
      (∃ msg, (logAction env log userId actionType entity details opts).result = .error msg) ∧
      (logAction env log userId actionType entity details opts).log = log) ∧
    (jsTrim userId ≠ "" → jsToUpper (jsTrim actionType) ∈ ACTION_TYPES → jsTrim entity ≠ "" →
      ¬(jsToUpper (jsTrim actionType) = "DELETE" ∧ (opts.reason.map jsTrim).getD "" = "") →
      (logAction env log userId actionType entity details opts).result =
        .ok (buildEntry env (jsTrim userId) (jsToUpper (jsTrim actionType)) (jsTrim entity)
          details opts (opts.reason.map jsTrim)) ∧
      (logAction env log userId actionType entity details opts).log =
        log ++ [buildEntry env (jsTrim userId) (jsToUpper (jsTrim actionType)) (jsTrim entity)
          details opts (opts.reason.map jsTrim)]) :=
  logAction_gate_aux env log userId actionType entity details opts

/-- C1 witness: with userId `"u1"`, actionType `"DELETE"`, entity
`"session"` and a non-blank reason, the success branch of the validation
gate applies. -/
theorem logAction_validation_gate_inst :
    jsTrim "u1" ≠ "" ∧ jsToUpper (jsTrim "DELETE") ∈ ACTION_TYPES ∧
    jsTrim "session" ≠ "" ∧
    (logAction testEnv [testEntry] "u1" "DELETE" "session" (Json.obj []) (reasonOnly "cleanup")).result =
      .ok (buildEntry testEnv "u1" "DELETE" "session" (Json.obj [])
        (reasonOnly "cleanup") (some "cleanup")) ∧
    (logAction testEnv [testEntry] "u1" "DELETE" "session" (Json.obj []) (reasonOnly "cleanup")).log =
      [testEntry] ++ [buildEntry testEnv "u1" "DELETE" "session" (Json.obj [])
        (reasonOnly "cleanup") (some "cleanup")] := by
  refine ⟨by decide, by decide, by decide, ?_⟩
  have h := (logAction_validation_gate testEnv [testEntry] "u1" "DELETE" "session"
    (Json.obj []) (reasonOnly "cleanup")).2 (by decide) (by decide) (by decide) (by decide)
  exact h

/-! ### C10 — actionType is normalized before the enum check -/

/-- C10: `logAction` trims and uppercases `actionType` before the enum
membership test, so any successfully stored entry's `actionType` is the
trimmed uppercased form of the argument, and a call whose other
validations pass succeeds whenever the normalized form is one of the four
enum values (hence case-insensitive, whitespace-tolerant acceptance). -/
theorem logAction_actionType_normalized (env : AuditEnv) (log : List AuditEntry)
    (userId actionType entity : String) (details : Json) (opts : LogOptions) (e : AuditEntry) :
    ((logAction env log userId actionType entity details opts).result = .ok e →
      e.actionType = jsToUpper (jsTrim actionType)) ∧
    (jsTrim userId ≠ "" → jsToUpper (jsTrim actionType) ∈ ACTION_TYPES → jsTrim entity ≠ "" →
      ¬(jsToUpper (jsTrim actionType) = "DELETE" ∧ (opts.reason.map jsTrim).getD "" = "") →
      (logAction env log userId actionType entity details opts).result.toOption.isSome = true) := by
  constructor
  · intro h
    by_cases hc : jsTrim userId = "" ∨ jsToUpper (jsTrim actionType) ∉ ACTION_TYPES ∨
        jsTrim entity = "" ∨
        (jsToUpper (jsTrim actionType) = "DELETE" ∧ (opts.reason.map jsTrim).getD "" = "")
    · obtain ⟨⟨msg, hm⟩, -⟩ :=
        (logAction_gate_aux env log userId actionType entity details opts).1 hc
      rw [hm] at h
      exact absurd h (by simp)
    · push_neg at hc
      obtain ⟨h1, h2, h3, h4⟩ := hc
      have hs := (logAction_gate_aux env log userId actionType entity details opts).2 h1 h2 h3
        (by intro hd; exact absurd hd.2 (h4 hd.1))
      rw [hs.1] at h
      cases h
      rfl
  · intro h1 h2 h3 h4
    have hs := (logAction_gate_aux env log userId actionType entity details opts).2 h1 h2 h3 h4
    rw [hs.1]
    rfl

/-- C10 witness: the padded lowercase input `" create "` passes the gate
and is stored as `"CREATE"`. -/
theorem logAction_actionType_normalized_inst :
    ((logAction testEnv [] "u1" " create " "session" (Json.obj []) LogOptions.empty).result =
        .ok (buildEntry testEnv "u1" "CREATE" "session" (Json.obj []) LogOptions.empty none) →
      (buildEntry testEnv "u1" "CREATE" "session" (Json.obj [])
        LogOptions.empty none).actionType = jsToUpper (jsTrim " create ")) ∧
    (jsTrim "u1" ≠ "" → jsToUpper (jsTrim " create ") ∈ ACTION_TYPES → jsTrim "session" ≠ "" →
      ¬(jsToUpper (jsTrim " create ") = "DELETE" ∧
        ((LogOptions.empty).reason.map jsTrim).getD "" = "") →
      (logAction testEnv [] "u1" " create " "session"
        (Json.obj []) LogOptions.empty).result.toOption.isSome = true) :=
  logAction_actionType_normalized testEnv [] "u1" " create " "session" (Json.obj [])
    LogOptions.empty (buildEntry testEnv "u1" "CREATE" "session" (Json.obj []) LogOptions.empty none)

/-! ### C2 and C9 — clearLogs signature gate -/

/-- C2 counterexample: a whitespace-only password is blank, yet the call
succeeds and empties the log (the password is never trimmed), so the
claimed failure with equal pre- and post-call counts does not happen. -/
theorem clearLogs_blank_password_cex :
    jsTrim " " = "" ∧
    (clearLogs "2024-01-01T00:00:00.000Z" [testEntry]
      (some { username := "admin", password := " " })).result =
      .ok { cleared := 1, timestamp := "2024-01-01T00:00:00.000Z" } ∧
    (clearLogs "2024-01-01T00:00:00.000Z" [testEntry]
      (some { username := "admin", password := " " })).log = [] :=
  ⟨rfl, rfl, rfl⟩

/-- C2 (amended): `clearLogs` fails before any mutation exactly when the
signature is missing, the trimmed username is blank, or the password is
the empty string (a whitespace-only password is accepted verbatim); on
success it returns the pre-clear entry count with a timestamp, replaces
the persisted log with the empty sequence, and appends no audit entry. -/
theorem clearLogs_signature_gate (now : String) (log : List AuditEntry) (eSign : Option ESign) :
    ((match eSign with
      | some s => jsTrim s.username = "" ∨ s.password = ""
      | none => True) →
      (∃ msg, (clearLogs now log eSign).result = .error msg) ∧
      (clearLogs now log eSign).log = log) ∧
    ((match eSign with
      | some s => jsTrim s.username ≠ "" ∧ s.password ≠ ""
      | none => False) →
      (clearLogs now log eSign).result = .ok { cleared := log.length, timestamp := now } ∧
      (clearLogs now log eSign).log = []) := by
  cases eSign with
  | none => exact ⟨fun _ => ⟨⟨_, rfl⟩, rfl⟩, fun h => h.elim⟩
  | some s =>
    have h0 : jsTrim "" = "" := rfl
    by_cases hu : s.username = "" <;> by_cases hp : s.password = "" <;>
      by_cases ht : jsTrim s.username = "" <;>
      simp_all [clearLogs]

/-- C2 witness: a signature with non-blank username and non-empty password
clears a one-entry log, returning count 1 and leaving the log empty. -/
theorem clearLogs_signature_gate_inst :
    ((jsTrim "admin" = "" ∨ ("secret" : String) = "") →
      (∃ msg, (clearLogs "2024-01-01T00:00:00.000Z" [testEntry]
        (some { username := "admin", password := "secret" })).result = .error msg) ∧
      (clearLogs "2024-01-01T00:00:00.000Z" [testEntry]
        (some { username := "admin", password := "secret" })).log = [testEntry]) ∧
    ((jsTrim "admin" ≠ "" ∧ ("secret" : String) ≠ "") →
      (clearLogs "2024-01-01T00:00:00.000Z" [testEntry]
        (some { username := "admin", password := "secret" })).result =
        .ok { cleared := 1, timestamp := "2024-01-01T00:00:00.000Z" } ∧
      (clearLogs "2024-01-01T00:00:00.000Z" [testEntry]
        (some { username := "admin", password := "secret" })).log = []) :=
  clearLogs_signature_gate "2024-01-01T00:00:00.000Z" [testEntry]
    (some { username := "admin", password := "secret" })

/-- C9: `clearLogs` checks only that the trimmed username and the raw
password are non-empty strings — success is equivalent to that check, and
any such pair of strings clears the whole log, with no credential
verification involved (the success value depends on no identity data). -/
theorem clearLogs_no_identity_verification (now : String) (log : List AuditEntry)
    (username password : String) :
    ((clearLogs now log (some { username := username, password := password })).result.toOption.isSome
        = true ↔ (jsTrim username ≠ "" ∧ password ≠ "")) ∧
    (jsTrim username ≠ "" → password ≠ "" →
      (clearLogs now log (some { username := username, password := password })).result =
        .ok { cleared := log.length, timestamp := now } ∧
      (clearLogs now log (some { username := username, password := password })).log = []) := by
  have h0 : jsTrim "" = "" := rfl
  by_cases hu : username = "" <;> by_cases hp : password = "" <;>
    by_cases ht : jsTrim username = "" <;>
    simp_all [clearLogs, Except.toOption]

/-- C9 witness: the nonsensical signature `("ghost-user", " ")` — a
whitespace-only password, no real account — still clears a one-entry log. -/
theorem clearLogs_no_identity_verification_inst :
    jsTrim "ghost-user" ≠ "" ∧ (" " : String) ≠ "" ∧
    (clearLogs "2024-01-01T00:00:00.000Z" [testEntry]
      (some { username := "ghost-user", password := " " })).result =
      .ok { cleared := 1, timestamp := "2024-01-01T00:00:00.000Z" } ∧
    (clearLogs "2024-01-01T00:00:00.000Z" [testEntry]
      (some { username := "ghost-user", password := " " })).log = [] := by
  refine ⟨by decide, by decide, ?_, ?_⟩
  · exact ((clearLogs_no_identity_verification "2024-01-01T00:00:00.000Z" [testEntry]
      "ghost-user" " ").2 (by decide) (by decide)).1
  · exact ((clearLogs_no_identity_verification "2024-01-01T00:00:00.000Z" [testEntry]
      "ghost-user" " ").2 (by decide) (by decide)).2

/-! ### C6 — signature hash determinism and (non-)injectivity -/

/-- Signature hash of a payload result: `some` hash on success, `none` on
a validation error. -/
def payloadHashOf (x : Except String SignaturePayload) : Option String :=
  match x with
  | .ok p => some p.signatureHash
  | .error _ => none

set_option maxRecDepth 40000 in
/-- C6 counterexample: changing the signerId component from `"costarring"`
to `"liquid"` leaves the 32-bit FNV-1a signature hash unchanged (a known
collision of the digest), so changing one component of the tuple does not
always change the hash. -/
theorem signatureHash_collision_cex :
    computeSignatureHash "costarring" "2024-01-01T00:00:00.000Z" "cleanup" "note" =
      computeSignatureHash "liquid" "2024-01-01T00:00:00.000Z" "cleanup" "note" ∧
    payloadHashOf (createSignaturePayload "2024-01-01T00:00:00.000Z" "costarring"
        (some "cleanup") (some "note")) =
      payloadHashOf (createSignaturePayload "2024-01-01T00:00:00.000Z" "liquid"
        (some "cleanup") (some "note")) ∧
    ("costarring" : String) ≠ "liquid" := by
  refine ⟨by decide, by decide, by decide⟩

/-- C6 (amended): the signature hash of a successful payload is a
deterministic function of exactly the ordered tuple (signerId, reason,
comment, timestamp) — identical inputs at the same instant give an
identical hash — and the payload carries signerId and reason unchanged
when the comment component changes; changing one component, however, only
usually changes the hash, since the 32-bit digest admits collisions. -/
theorem createSignaturePayload_spec (now userId : String)
    (reason comment comment2 : Option String) (p p2 : SignaturePayload)
    (h : createSignaturePayload now userId reason comment = .ok p)
    (h2 : createSignaturePayload now userId reason comment2 = .ok p2) :
    p.signatureHash = computeSignatureHash (jsTrim userId) now (reason.getD "") (comment.getD "") ∧
    p.signerId = jsTrim userId ∧
    p.isoTimestamp = now ∧
    p2.signerId = p.signerId ∧
    p2.reason = p.reason := by
  simp only [createSignaturePayload] at h h2
  by_cases hb : jsTrim userId = ""
  · rw [if_pos hb] at h
    exact absurd h (by simp)
  · rw [if_neg hb] at h
    rw [if_neg hb] at h2
    injection h with h
    injection h2 with h2
    subst h
    subst h2
    exact ⟨rfl, rfl, rfl, rfl, rfl⟩

set_option maxRecDepth 40000 in
/-- C6 witness: `createSignaturePayload` at signer `"u1"`, reason
`"cleanup"`, comments `"note"` and `"note2"`, at one instant: the
specification instance holds, and at this instance the two hashes do
differ. -/
theorem createSignaturePayload_spec_inst :
    ({ signerId := "u1", isoTimestamp := "2024-01-01T00:00:00.000Z",
       signatureHash := computeSignatureHash "u1" "2024-01-01T00:00:00.000Z" "cleanup" "note",
       reason := some "cleanup", comment := some "note" : SignaturePayload }.signatureHash =
      computeSignatureHash (jsTrim "u1") "2024-01-01T00:00:00.000Z"
        ((some "cleanup").getD "") ((some "note").getD "") ∧
     ({ signerId := "u1", isoTimestamp := "2024-01-01T00:00:00.000Z",
        signatureHash := computeSignatureHash "u1" "2024-01-01T00:00:00.000Z" "cleanup" "note",
        reason := some "cleanup", comment := some "note" : SignaturePayload }.signerId = jsTrim "u1") ∧
     ({ signerId := "u1", isoTimestamp := "2024-01-01T00:00:00.000Z",
        signatureHash := computeSignatureHash "u1" "2024-01-01T00:00:00.000Z" "cleanup" "note",
        reason := some "cleanup", comment := some "note" : SignaturePayload }.isoTimestamp =
       "2024-01-01T00:00:00.000Z") ∧
     ({ signerId := "u1", isoTimestamp := "2024-01-01T00:00:00.000Z",
        signatureHash := computeSignatureHash "u1" "2024-01-01T00:00:00.000Z" "cleanup" "note2",
        reason := some "cleanup", comment := some "note2" : SignaturePayload }.signerId =
       { signerId := "u1", isoTimestamp := "2024-01-01T00:00:00.000Z",
         signatureHash := computeSignatureHash "u1" "2024-01-01T00:00:00.000Z" "cleanup" "note",
         reason := some "cleanup", comment := some "note" : SignaturePayload }.signerId) ∧
     ({ signerId := "u1", isoTimestamp := "2024-01-01T00:00:00.000Z",
        signatureHash := computeSignatureHash "u1" "2024-01-01T00:00:00.000Z" "cleanup" "note2",
        reason := some "cleanup", comment := some "note2" : SignaturePayload }.reason =
       { signerId := "u1", isoTimestamp := "2024-01-01T00:00:00.000Z",
         signatureHash := computeSignatureHash "u1" "2024-01-01T00:00:00.000Z" "cleanup" "note",
         reason := some "cleanup", comment := some "note" : SignaturePayload }.reason)) ∧
    computeSignatureHash "u1" "2024-01-01T00:00:00.000Z" "cleanup" "note" ≠
      computeSignatureHash "u1" "2024-01-01T00:00:00.000Z" "cleanup" "note2" := by
  refine ⟨createSignaturePayload_spec "2024-01-01T00:00:00.000Z" "u1"
    (some "cleanup") (some "note") (some "note2") _ _ rfl rfl, by decide⟩

/-! ### C5 — CSV export shape and unsupported formats -/

/-- C5: `exportLogs "csv"` succeeds with the fixed 11-column header as its
first row followed by one row per entry, every cell wrapped in double
quotes with embedded double quotes doubled and the nested `details`,
`before`, `after` and `metadata` values JSON-encoded inside the quoted
cell; any format other than `"json"` and `"csv"` fails with the
unsupported-format error. -/
theorem exportLogs_csv_spec (now format : String) (log : List AuditEntry) :
    (format ≠ "json" → format ≠ "csv" →
      exportLogs now log format = .error ("Unsupported export format: " ++ format)) ∧
    exportLogs now log "csv" = .ok
      { filename := "audit-export-" ++ tsSafe now ++ ".csv"
        mimeType := "text/csv"
        content := String.intercalate "\n"
          ("id,timestamp,userId,actionType,entity,reason,correlationId,details,before,after,metadata"
            :: log.map fun e => String.intercalate ","
              ([e.id, e.timestamp, e.userId, e.actionType, e.entity, e.reason.getD "",
                e.correlationId, Json.stringify e.details, Json.stringify e.before,
                Json.stringify e.after, Json.stringify (Json.obj e.metadata)].map
                fun s => "\"" ++ String.mk (s.toList.foldr
                  (fun c acc => if c = '"' then '"' :: '"' :: acc else c :: acc) []) ++ "\"")) } := by
  constructor
  · intro hj hc
    simp [exportLogs, hj, hc]
  · rfl

/-- C5 witness: a format string outside the two supported ones fails, and
the one-entry export produces the quoted header-plus-row content. -/
theorem exportLogs_csv_spec_inst :
    (("xml" : String) ≠ "json" → ("xml" : String) ≠ "csv" →
      exportLogs "2024-01-01T00:00:00.000Z" [testEntry] "xml" =
        .error ("Unsupported export format: " ++ "xml")) ∧
    exportLogs "2024-01-01T00:00:00.000Z" [testEntry] "csv" = .ok
      { filename := "audit-export-" ++ tsSafe "2024-01-01T00:00:00.000Z" ++ ".csv"
        mimeType := "text/csv"
        content := String.intercalate "\n"
          ("id,timestamp,userId,actionType,entity,reason,correlationId,details,before,after,metadata"
            :: [testEntry].map fun e => String.intercalate ","
              ([e.id, e.timestamp, e.userId, e.actionType, e.entity, e.reason.getD "",
                e.correlationId, Json.stringify e.details, Json.stringify e.before,
                Json.stringify e.after, Json.stringify (Json.obj e.metadata)].map
                fun s => "\"" ++ String.mk (s.toList.foldr
                  (fun c acc => if c = '"' then '"' :: '"' :: acc else c :: acc) []) ++ "\"")) } :=
  exportLogs_csv_spec "2024-01-01T00:00:00.000Z" "xml" [testEntry]

/-! ### C7 — recordError diagnostics -/

/-- Lookup distributes over list append of object fields. -/
lemma objLookup_append (k : String) (l1 l2 : List (String × Json)) :
    objLookup k (l1 ++ l2) =
      match objLookup k l1 with
      | some v => some v
      | none => objLookup k l2 := by
  induction l1 with
  | nil => simp [objLookup]
  | cons hd tl ih =>
    by_cases hk : hd.1 = k <;> simp [objLookup, hk, ih]

/-- Lookup in the value-overriding map of `objMerge`: the keys of `base`
are kept, each value replaced by the `extra` binding when present. -/
lemma objLookup_mergeMap (k : String) (base extra : List (String × Json)) :
    objLookup k (base.map fun kv =>
      match objLookup kv.1 extra with
      | some v => (kv.1, v)
      | none => kv) =
      match objLookup k base with
      | none => none
      | some v =>
        match objLookup k extra with
        | some w => some w
        | none => some v := by
  induction base with
  | nil => simp [objLookup]
  | cons hd tl ih =>
    by_cases hk : hd.1 = k
    · subst hk
      cases hex : objLookup hd.1 extra <;> simp [objLookup, hex]
    · cases hex : objLookup hd.1 extra <;> simp [objLookup, hex, hk, ih]

/-- Lookup passes through a filter that keeps every entry with key `k`. -/
lemma objLookup_filter_keep (k : String) (l : List (String × Json))
    (g : String × Json → Bool) (hg : ∀ kv, kv.1 = k → g kv = true) :
    objLookup k (l.filter g) = objLookup k l := by
  induction l with
  | nil => simp
  | cons hd tl ih =>
    by_cases hk : hd.1 = k
    · rw [List.filter_cons_of_pos (hg hd hk)]
      simp [objLookup, hk, ih]
    · by_cases hgv : g hd = true
      · rw [List.filter_cons_of_pos hgv]
        simp [objLookup, hk, ih]
      · rw [List.filter_cons_of_neg (by simpa using hgv)]
        simp [objLookup, hk, ih]

/-- Property lookup on the object spread `objMerge base extra`: an `extra`
binding wins, otherwise the `base` binding is served. -/
lemma objLookup_objMerge (k : String) (base extra : List (String × Json)) :
    objLookup k (objMerge base extra) =
      match objLookup k extra with
      | some v => some v
      | none => objLookup k base := by
  unfold objMerge
  rw [objLookup_append, objLookup_mergeMap]
  cases hb : objLookup k base with
  | some v => cases hex : objLookup k extra <;> simp [hex]
  | none =>
    cases hex : objLookup k extra with
    | some v =>
      rw [objLookup_filter_keep k extra _ (fun kv hkv => by simp [hkv, hb])]
      simp [hex]
    | none =>
      rw [objLookup_filter_keep k extra _ (fun kv hkv => by simp [hkv, hb])]
      simp [hex]

/-- Success of a `logAction` call with literal action `"READ"` and
non-blank user and entity. -/
lemma logAction_read_spec (env : AuditEnv) (log : List AuditEntry)
    (userId entity : String) (details : Json) (opts : LogOptions)
    (hu : jsTrim userId ≠ "") (he : jsTrim entity ≠ "") :
    (logAction env log userId "READ" entity details opts).result =
      .ok (buildEntry env (jsTrim userId) "READ" (jsTrim entity) details opts
        (opts.reason.map jsTrim)) ∧
    (logAction env log userId "READ" entity details opts).log =
      log ++ [buildEntry env (jsTrim userId) "READ" (jsTrim entity) details opts
        (opts.reason.map jsTrim)] :=
  (logAction_gate_aux env log userId "READ" entity details opts).2 hu (by decide) he
    (fun hd => absurd hd.1 (by decide))

/-- Accessor for one field of an entry's `details` object. -/
def detailsLookup (e : AuditEntry) (key : String) : Option Json :=
  match e.details with
  | .obj fs => objLookup key fs
  | _ => none

/-- A concrete Error-like value. -/
def cexError : JsError :=
  { name := some "TypeError", message := some "boom", stack := none, str := "TypeError: boom" }

/-- A context whose `extra` shadows the `name` detail field. -/
def cexContext : ErrorContext :=
  { userId := none, correlationId := none, reason := none, entity := none,
    extra := some [("name", Json.str "shadow")] }

/-- C7 counterexample: when `context.extra` carries a `name` field, the
spread places it over the error facts, so the created entry's details
carry `extra`'s name, not the error's name — the claim that every created
entry's details carry the error's name fails. -/
theorem recordError_extra_overrides_cex :
    (recordError testEnv [] (some cexError) (some cexContext)).result.isSome = true ∧
    ((recordError testEnv [] (some cexError) (some cexContext)).result.map
      fun e => detailsLookup e "name") = some (some (Json.str "shadow")) ∧
    cexError.name = some "TypeError" ∧
    ("shadow" : String) ≠ "TypeError" := by
  refine ⟨rfl, rfl, rfl, by decide⟩

/-- C7 (amended): `recordError` never raises — it returns the created
entry or, when the inner `logAction` fails, `none` with the log unchanged;
every entry it creates has actionType `"READ"`, is appended to the log,
and its details carry the error's name and message except where a
same-keyed `context.extra` field overrides them, and carry every
`context.extra` field. -/
theorem recordError_spec (env : AuditEnv) (log : List AuditEntry) (error : Option JsError)
    (context : Option ErrorContext) (e : AuditEntry) (k : String) (v : Json) :
    ((recordError env log error context).result = none →
      (recordError env log error context).log = log) ∧
    ((recordError env log error context).result = some e →
      e.actionType = "READ" ∧
      (recordError env log error context).log = log ++ [e] ∧
      e.details = Json.obj (objMerge (errDetailsBase error) ((context.bind (·.extra)).getD [])) ∧
      (objLookup "name" ((context.bind (·.extra)).getD []) = none →
        objLookup "name" (objMerge (errDetailsBase error) ((context.bind (·.extra)).getD [])) =
          some (Json.str ((error.bind (·.name)).getD "Error"))) ∧
      (objLookup "message" ((context.bind (·.extra)).getD []) = none →
        objLookup "message" (objMerge (errDetailsBase error) ((context.bind (·.extra)).getD [])) =
          some (Json.str (errMessageOf error))) ∧
      (objLookup k ((context.bind (·.extra)).getD []) = some v →
        objLookup k (objMerge (errDetailsBase error) ((context.bind (·.extra)).getD [])) =
          some v)) := by
  have hname : objLookup "name" (errDetailsBase error) =
      some (Json.str ((error.bind (·.name)).getD "Error")) := rfl
  have hmsg : objLookup "message" (errDetailsBase error) =
      some (Json.str (errMessageOf error)) := rfl
  simp only [recordError]
  by_cases hu : jsTrim (jsOrDefault (context.bind fun c => c.userId) "system") = ""
  · obtain ⟨⟨msg, hm⟩, -⟩ :=
      (logAction_gate_aux env log (jsOrDefault (context.bind fun c => c.userId) "system")
        "READ" (jsOrDefault (context.bind fun c => c.entity) "error")
        (Json.obj (objMerge (errDetailsBase error) ((context.bind fun c => c.extra).getD [])))
        { before := none, after := none,
          reason := some (jsOrDefault (context.bind fun c => c.reason) "Technical error captured"),
          correlationId := context.bind fun c => c.correlationId, metadata := none }).1
      (Or.inl hu)
    rw [hm]
    exact ⟨fun _ => rfl, fun hsome => absurd hsome (by simp)⟩
  · by_cases he : jsTrim (jsOrDefault (context.bind fun c => c.entity) "error") = ""
    · obtain ⟨⟨msg, hm⟩, -⟩ :=
        (logAction_gate_aux env log (jsOrDefault (context.bind fun c => c.userId) "system")
          "READ" (jsOrDefault (context.bind fun c => c.entity) "error")
          (Json.obj (objMerge (errDetailsBase error) ((context.bind fun c => c.extra).getD [])))
          { before := none, after := none,
            reason := some (jsOrDefault (context.bind fun c => c.reason) "Technical error captured"),
            correlationId := context.bind fun c => c.correlationId, metadata := none }).1
        (Or.inr (Or.inr (Or.inl he)))
      rw [hm]
      exact ⟨fun _ => rfl, fun hsome => absurd hsome (by simp)⟩
    · obtain ⟨hok, hlog⟩ :=
        logAction_read_spec env log (jsOrDefault (context.bind fun c => c.userId) "system")
          (jsOrDefault (context.bind fun c => c.entity) "error")
          (Json.obj (objMerge (errDetailsBase error) ((context.bind fun c => c.extra).getD [])))
          { before := none, after := none,
            reason := some (jsOrDefault (context.bind fun c => c.reason) "Technical error captured"),
            correlationId := context.bind fun c => c.correlationId, metadata := none }
          hu he
      rw [hok, hlog]
      refine ⟨fun hnone => absurd hnone (by simp), fun hsome => ?_⟩
      have he2 : e = buildEntry env
          (jsTrim (jsOrDefault (context.bind fun c => c.userId) "system")) "READ"
          (jsTrim (jsOrDefault (context.bind fun c => c.entity) "error"))
          (Json.obj (objMerge (errDetailsBase error) ((context.bind fun c => c.extra).getD [])))
          { before := none, after := none,
            reason := some (jsOrDefault (context.bind fun c => c.reason) "Technical error captured"),
            correlationId := context.bind fun c => c.correlationId, metadata := none }
          ((some (jsOrDefault (context.bind fun c => c.reason)
            "Technical error captured")).map jsTrim) := by
        injection hsome with hsome
        exact hsome.symm
      subst he2
      refine ⟨rfl, rfl, rfl, ?_, ?_, ?_⟩
      · intro hnone2
        rw [objLookup_objMerge, hnone2, hname]
      · intro hnone2
        rw [objLookup_objMerge, hnone2, hmsg]
      · intro hsome2
        rw [objLookup_objMerge, hsome2]

/-- A context whose `extra` carries a fresh diagnostic key. -/
def reqContext : ErrorContext :=
  { userId := none, correlationId := none, reason := none, entity := none,
    extra := some [("requestId", Json.num 7)] }

/-- The entry `recordError` builds for `cexError` under `reqContext`. -/
def reqEntry : AuditEntry :=
  buildEntry testEnv "system" "READ" "error"
    (Json.obj (objMerge (errDetailsBase (some cexError)) [("requestId", Json.num 7)]))
    { before := none, after := none, reason := some "Technical error captured",
      correlationId := none, metadata := none }
    (some "Technical error captured")

/-- C7 witness: recording a `TypeError` with an extra `requestId` field
creates exactly `reqEntry`, and the specification instance holds for it:
action type READ, appended entry, details carrying name, message and the
extra field. -/
theorem recordError_spec_inst :
    (recordError testEnv [] (some cexError) (some reqContext)).result = some reqEntry ∧
    (((recordError testEnv [] (some cexError) (some reqContext)).result = none →
      (recordError testEnv [] (some cexError) (some reqContext)).log = []) ∧
    ((recordError testEnv [] (some cexError) (some reqContext)).result = some reqEntry →
      reqEntry.actionType = "READ" ∧
      (recordError testEnv [] (some cexError) (some reqContext)).log = [] ++ [reqEntry] ∧
      reqEntry.details = Json.obj (objMerge (errDetailsBase (some cexError))
        (((some reqContext).bind (·.extra)).getD [])) ∧
      (objLookup "name" (((some reqContext).bind (·.extra)).getD []) = none →
        objLookup "name" (objMerge (errDetailsBase (some cexError))
          (((some reqContext).bind (·.extra)).getD [])) =
            some (Json.str (((some cexError).bind (·.name)).getD "Error"))) ∧
      (objLookup "message" (((some reqContext).bind (·.extra)).getD []) = none →
        objLookup "message" (objMerge (errDetailsBase (some cexError))
          (((some reqContext).bind (·.extra)).getD [])) =
            some (Json.str (errMessageOf (some cexError)))) ∧
      (objLookup "requestId" (((some reqContext).bind (·.extra)).getD []) = some (Json.num 7) →
        objLookup "requestId" (objMerge (errDetailsBase (some cexError))
          (((some reqContext).bind (·.extra)).getD [])) = some (Json.num 7)))) :=
  ⟨rfl, recordError_spec testEnv [] (some cexError) (some reqContext) reqEntry
    "requestId" (Json.num 7)⟩

/-! ### C3 — getLogs pagination -/

/-- Chunking a list into `n` pages of size `k` accounts for every element
exactly once when `n * k` covers the list. -/
lemma sum_chunk_lengths (k n : Nat) (l : List AuditEntry) (hn : l.length ≤ n * k) :
    ((List.range n).map fun i => ((l.drop (i * k)).take k).length).sum = l.length := by
  induction n generalizing l with
  | zero =>
    simp only [Nat.zero_mul, Nat.le_zero] at hn
    simp [hn]
  | succ n ih =>
    rw [List.range_succ_eq_map]
    simp only [List.map_cons, List.map_map, List.sum_cons, Nat.zero_mul, List.drop_zero]
    have hfun : ((fun i => ((l.drop (i * k)).take k).length) ∘ Nat.succ) =
        fun i => (((l.drop k).drop (i * k)).take k).length := by
      funext i
      simp only [Function.comp]
      rw [List.drop_drop]
      congr 2
      simp only [Nat.succ_eq_add_one]
      ring_nf
    have hlen : (l.drop k).length ≤ n * k := by
      have hx : (n + 1) * k = n * k + k := by ring
      have hn2 : l.length ≤ n * k + k := hx ▸ hn
      simp only [List.length_drop]
      omega
    rw [hfun, ih (l.drop k) hlen]
    simp [List.length_take, List.length_drop]
    omega

/-- The ceiling page count times the page size covers the total. -/
lemma ceil_pages_cover (total k : Nat) (hk : 0 < k) :
    total ≤ (max 1 ((total + k - 1) / k)) * k := by
  rcases Nat.eq_zero_or_pos total with h0 | h0
  · simp [h0]
  · have he : total + k - 1 = (total - 1) + k := by omega
    have h1 : (total + k - 1) / k = (total - 1) / k + 1 := by
      rw [he, Nat.add_div_right _ hk]
    rw [h1, Nat.max_eq_right (Nat.le_add_left 1 _)]
    have hlt := (Nat.div_lt_iff_lt_mul hk).1 (Nat.lt_succ_self ((total - 1) / k))
    have hs := Nat.succ_le_of_lt hlt
    rwa [Nat.succ_eq_add_one, Nat.sub_add_cancel h0] at hs

/-- The coerced page value is always at least 1. -/
lemma coercePage_pos (v : Option Int) (dflt : Int) : 1 ≤ coercePage v dflt := by
  unfold coercePage
  have h : (1 : Int) ≤ max 1 (match v with
      | none => dflt
      | some n => if n = 0 then dflt else n) := le_max_left _ _
  exact Int.toNat_le_toNat h

/-- A positive literal page number passes through the coercion unchanged. -/
lemma coercePage_succ (i : Nat) : coercePage (some ((i : Int) + 1)) 1 = i + 1 := by
  show (max 1 (if (i : Int) + 1 = 0 then 1 else (i : Int) + 1)).toNat = i + 1
  rw [if_neg (by omega), max_eq_right (by omega)]
  omega

/-- C3: `getLogs` coerces `page` and `pageSize` to integers at least 1
(defaulting to 1 and 20 when absent), computes `total` and `totalPages`
from the filtered set, the item counts of pages `1..totalPages` sum to
`total`, any page beyond the last yields an empty `items` slice, and
`totalPages` is at least 1 even when `total` is 0. -/
theorem getLogs_pagination_spec (dateParse : String → Option Int) (log : List AuditEntry)
    (page? pageSize? : Option Int) (filters : LogFilters) :
    1 ≤ (getLogs dateParse log page? pageSize? filters).page ∧
    1 ≤ (getLogs dateParse log page? pageSize? filters).pageSize ∧
    (page? = none → (getLogs dateParse log page? pageSize? filters).page = 1) ∧
    (pageSize? = none → (getLogs dateParse log page? pageSize? filters).pageSize = 20) ∧
    (getLogs dateParse log page? pageSize? filters).total =
      (getLogsFiltered dateParse log filters).length ∧
    (getLogs dateParse log page? pageSize? filters).totalPages =
      max 1 (((getLogs dateParse log page? pageSize? filters).total +
        (getLogs dateParse log page? pageSize? filters).pageSize - 1) /
        (getLogs dateParse log page? pageSize? filters).pageSize) ∧
    1 ≤ (getLogs dateParse log page? pageSize? filters).totalPages ∧
    ((List.range (getLogs dateParse log page? pageSize? filters).totalPages).map
      fun (i : Nat) =>
      (getLogs dateParse log (some ((i : Int) + 1)) pageSize? filters).items.length).sum =
      (getLogs dateParse log page? pageSize? filters).total ∧
    ((getLogs dateParse log page? pageSize? filters).totalPages <
        (getLogs dateParse log page? pageSize? filters).page →
      (getLogs dateParse log page? pageSize? filters).items = []) := by
  refine ⟨coercePage_pos page? 1, coercePage_pos pageSize? 20,
    fun h => by rw [h]; rfl, fun h => by rw [h]; rfl, rfl, rfl, le_max_left _ _, ?_, ?_⟩
  · have hmap : ∀ i ∈ List.range (getLogs dateParse log page? pageSize? filters).totalPages,
        (getLogs dateParse log (some ((i : Int) + 1)) pageSize? filters).items.length =
        (((getLogsFiltered dateParse log filters).drop (i * coercePage pageSize? 20)).take
          (coercePage pageSize? 20)).length := by
      intro i _
      show (((getLogsFiltered dateParse log filters).drop
        ((coercePage (some ((i : Int) + 1)) 1 - 1) * coercePage pageSize? 20)).take
          (coercePage pageSize? 20)).length = _
      rw [coercePage_succ]
      simp
    calc ((List.range (getLogs dateParse log page? pageSize? filters).totalPages).map
          fun (i : Nat) =>
          (getLogs dateParse log (some ((i : Int) + 1)) pageSize? filters).items.length).sum
        = ((List.range (getLogs dateParse log page? pageSize? filters).totalPages).map fun i =>
          (((getLogsFiltered dateParse log filters).drop (i * coercePage pageSize? 20)).take
            (coercePage pageSize? 20)).length).sum := by
          congr 1
          exact List.map_congr_left hmap
      _ = (getLogsFiltered dateParse log filters).length :=
          sum_chunk_lengths (coercePage pageSize? 20)
            (getLogs dateParse log page? pageSize? filters).totalPages
            (getLogsFiltered dateParse log filters)
            (ceil_pages_cover (getLogsFiltered dateParse log filters).length
              (coercePage pageSize? 20) (coercePage_pos pageSize? 20))
  · intro hbeyond
    have hcover := ceil_pages_cover (getLogsFiltered dateParse log filters).length
      (coercePage pageSize? 20) (coercePage_pos pageSize? 20)
    have hstart : (getLogsFiltered dateParse log filters).length ≤
        (coercePage page? 1 - 1) * coercePage pageSize? 20 := by
      calc (getLogsFiltered dateParse log filters).length
          ≤ (getLogs dateParse log page? pageSize? filters).totalPages *
            coercePage pageSize? 20 := hcover
        _ ≤ (coercePage page? 1 - 1) * coercePage pageSize? 20 :=
            Nat.mul_le_mul_right _ (by
              have hp : (getLogs dateParse log page? pageSize? filters).page =
                coercePage page? 1 := rfl
              rw [hp] at hbeyond
              omega)
    show (((getLogsFiltered dateParse log filters).drop
      ((coercePage page? 1 - 1) * coercePage pageSize? 20)).take (coercePage pageSize? 20)) = []
    rw [List.drop_eq_nil_of_le hstart]
    exact List.take_nil

/-- C3 witness: a two-entry log with page size 1 — two pages of one item
each, and page 5 is empty. -/
theorem getLogs_pagination_spec_inst :
    1 ≤ (getLogs dateParseTest [testEntry, testEntryOld] (some 5) (some 1) LogFilters.empty).page ∧
    1 ≤ (getLogs dateParseTest [testEntry, testEntryOld] (some 5) (some 1)
      LogFilters.empty).pageSize ∧
    ((some (5 : Int)) = none → (getLogs dateParseTest [testEntry, testEntryOld] (some 5) (some 1)
      LogFilters.empty).page = 1) ∧
    ((some (1 : Int)) = none → (getLogs dateParseTest [testEntry, testEntryOld] (some 5) (some 1)
      LogFilters.empty).pageSize = 20) ∧
    (getLogs dateParseTest [testEntry, testEntryOld] (some 5) (some 1) LogFilters.empty).total =
      (getLogsFiltered dateParseTest [testEntry, testEntryOld] LogFilters.empty).length ∧
    (getLogs dateParseTest [testEntry, testEntryOld] (some 5) (some 1)
      LogFilters.empty).totalPages =
      max 1 (((getLogs dateParseTest [testEntry, testEntryOld] (some 5) (some 1)
          LogFilters.empty).total +
        (getLogs dateParseTest [testEntry, testEntryOld] (some 5) (some 1)
          LogFilters.empty).pageSize - 1) /
        (getLogs dateParseTest [testEntry, testEntryOld] (some 5) (some 1)
          LogFilters.empty).pageSize) ∧
    1 ≤ (getLogs dateParseTest [testEntry, testEntryOld] (some 5) (some 1)
      LogFilters.empty).totalPages ∧
    ((List.range (getLogs dateParseTest [testEntry, testEntryOld] (some 5) (some 1)
        LogFilters.empty).totalPages).map fun (i : Nat) =>
      (getLogs dateParseTest [testEntry, testEntryOld] (some ((i : Int) + 1)) (some 1)
        LogFilters.empty).items.length).sum =
      (getLogs dateParseTest [testEntry, testEntryOld] (some 5) (some 1)
        LogFilters.empty).total ∧
    ((getLogs dateParseTest [testEntry, testEntryOld] (some 5) (some 1)
        LogFilters.empty).totalPages <
      (getLogs dateParseTest [testEntry, testEntryOld] (some 5) (some 1) LogFilters.empty).page →
      (getLogs dateParseTest [testEntry, testEntryOld] (some 5) (some 1)
        LogFilters.empty).items = []) :=
  getLogs_pagination_spec dateParseTest [testEntry, testEntryOld] (some 5) (some 1)
    LogFilters.empty

/-! ### C4 — getLogs filter semantics -/

/-- Filters object carrying only an epoch-zero `from` bound. -/
def epochFilters : LogFilters :=
  { userId := [], actionType := [], entity := [], fromBound := some "1970-01-01T00:00:00.000Z",
    toBound := none, correlationId := none, text := none }

/-- C4 counterexample: with `from` set to the epoch instant (which parses
to time value 0, a falsy number) and no `to`, the time gate
`fromTime || toTime` is falsy and no bound is enforced, so an entry one
second before the epoch stays in the filtered set although its timestamp
violates the supplied `from` bound. -/
theorem getLogs_epoch_bound_cex :
    getLogsFiltered dateParseTest [testEntryOld] epochFilters = [testEntryOld] ∧
    dateParseTest "1970-01-01T00:00:00.000Z" = some 0 ∧
    dateParseTest testEntryOld.timestamp = some (-1000) ∧
    ((-1000 : Int) < 0) := by
  refine ⟨rfl, rfl, rfl, by decide⟩

/-- Normalizing a list of already-normalized, non-blank filter values is
the identity. -/
lemma normalize_filter_eq (f : String → String) (l : List String)
    (h : ∀ s ∈ l, f s = s ∧ s ≠ "") :
    (l.map f).filter (fun s => !(s == "")) = l := by
  induction l with
  | nil => rfl
  | cons hd tl ih =>
    obtain ⟨h1, h2⟩ := h hd (by simp)
    simp only [List.map_cons, h1]
    rw [List.filter_cons_of_pos (by simp [h2])]
    rw [ih fun s hs => h s (by simp [hs])]

/-- Normalizing an already-normalized optional filter value is the
identity. -/
lemma option_norm_eq (f : String → String) (o : Option String)
    (h : ∀ s ∈ o, f s = s) : o.map f = o := by
  cases o with
  | none => rfl
  | some s => simp [h s rfl]

/-- The membership conjunct passes exactly when an absent filter is
skipped or the value belongs to the supplied set. -/
lemma contains_pass_iff (l : List String) (a : String) :
    (l.isEmpty || l.contains a) = true ↔ (l ≠ [] → a ∈ l) := by
  cases l <;> simp

/-- The correlation-id conjunct, for a non-blank supplied id, passes
exactly on equality. -/
lemma cid_pass_iff (cid : Option String) (e : AuditEntry)
    (hC : ∀ c ∈ cid, c ≠ "") :
    cidPass cid e = true ↔ (∀ c ∈ cid, e.correlationId = c) := by
  cases cid with
  | none => simp [cidPass]
  | some c =>
    have hc := hC c rfl
    simp [cidPass, hc]

/-- The empty search string occurs in every string. -/
lemma jsIncludes_empty (hay : String) : jsIncludes hay "" = true := by
  show listOccursIn "".toList hay.toList = true
  have h0 : ("" : String).toList = [] := rfl
  rw [h0]
  induction hay.toList with
  | nil => rfl
  | cons hd tl ih => simp [listOccursIn, listStartsWith, ih]

/-- The text conjunct passes exactly when every supplied search string
occurs in the lowercased serialized entry (an empty search string was
never assigned and always passes, vacuously agreeing). -/
lemma textPass_iff (text : Option String) (e : AuditEntry) :
    textPass text e = true ↔
      (∀ tx ∈ text, jsIncludes (jsToLower (Json.stringify (entryToJson e))) tx = true) := by
  cases text with
  | none => simp [textPass]
  | some t =>
    by_cases ht0 : t = ""
    · subst ht0
      simp [textPass, jsIncludes_empty]
    · simp [textPass, ht0]

/-- The time conjunct, for bounds that parse to finite nonzero time values
and an entry whose timestamp parses, passes exactly when the parsed
timestamp lies within the inclusive supplied bounds. -/
lemma timePass_iff (dateParse : String → Option Int) (fromB toB : Option String) (e : AuditEntry)
    (hF : ∀ s ∈ fromB, s ≠ "" ∧ ∃ n, dateParse s = some n ∧ n ≠ 0)
    (hTo : ∀ s ∈ toB, s ≠ "" ∧ ∃ n, dateParse s = some n ∧ n ≠ 0)
    (hTs : ∃ t, dateParse e.timestamp = some t) :
    ((if timeTruthy (timeOf dateParse fromB) || timeTruthy (timeOf dateParse toB) then
      (match timeFinite (timeOf dateParse fromB), dateParse e.timestamp with
        | some ft, some tv => !(decide (tv < ft))
        | _, _ => true) &&
      (match timeFinite (timeOf dateParse toB), dateParse e.timestamp with
        | some tt, some tv => !(decide (tt < tv))
        | _, _ => true)
     else true) = true) ↔
    ((∀ n t, fromB.bind dateParse = some n → dateParse e.timestamp = some t → n ≤ t) ∧
     (∀ n t, toB.bind dateParse = some n → dateParse e.timestamp = some t → t ≤ n)) := by
  obtain ⟨tv, htv⟩ := hTs
  cases fromB with
  | none =>
    cases toB with
    | none =>
      simp [timeOf, timeTruthy]
    | some s =>
      obtain ⟨hne, n, hn, hn0⟩ := hTo s rfl
      have h2 : timeOf dateParse (some s) = some (dateParse s) := by simp [timeOf, hne]
      rw [show timeOf dateParse (none : Option String) = none from rfl, h2, hn]
      rw [if_pos (by simp [timeTruthy, hn0])]
      simp only [timeFinite, htv, Option.bind, hn]
      simp [hn, htv]
  | some s =>
    obtain ⟨hne, n, hn, hn0⟩ := hF s rfl
    have h2 : timeOf dateParse (some s) = some (dateParse s) := by simp [timeOf, hne]
    cases toB with
    | none =>
      rw [show timeOf dateParse (none : Option String) = none from rfl, h2, hn]
      rw [if_pos (by simp [timeTruthy, hn0])]
      simp only [timeFinite, htv, Option.bind, hn]
      simp [hn, htv]
    | some s2 =>
      obtain ⟨hne2, n2, hn2, hn20⟩ := hTo s2 rfl
      have h3 : timeOf dateParse (some s2) = some (dateParse s2) := by simp [timeOf, hne2]
      rw [h2, h3, hn, hn2]
      rw [if_pos (by simp [timeTruthy, hn0])]
      simp only [timeFinite, htv, Option.bind, hn, hn2]
      simp [hn, hn2, htv]

/-- C4 (amended): for filter values that are normalization-stable (already
trimmed, action types uppercased, search text lowercased) and non-blank,
time bounds that parse to finite nonzero time values, and entries whose
timestamps parse, an entry is in the filtered set exactly when it
satisfies every supplied filter conjointly: membership of its
userId/actionType/entity in each supplied set, equality with a supplied
correlationId, its parsed timestamp within the inclusive parsed
`from`/`to` bounds, and each supplied search string occurring in the
lowercased serialized entry. (The counterexample shows the time-bound
caveat is needed: a bound parsing to the falsy value 0 is not enforced;
blank or unparseable filter values are likewise skipped, and supplied
values are normalized before comparison.) -/
theorem getLogsFiltered_mem_spec (dateParse : String → Option Int) (log : List AuditEntry)
    (filters : LogFilters) (e : AuditEntry)
    (hU : ∀ s ∈ filters.userId, jsTrim s = s ∧ s ≠ "")
    (hA : ∀ s ∈ filters.actionType, jsToUpper (jsTrim s) = s ∧ s ≠ "")
    (hE : ∀ s ∈ filters.entity, jsTrim s = s ∧ s ≠ "")
    (hC : ∀ c ∈ filters.correlationId, jsTrim c = c ∧ c ≠ "")
    (hT : ∀ t ∈ filters.text, jsToLower (jsTrim t) = t)
    (hF : ∀ s ∈ filters.fromBound, s ≠ "" ∧ ∃ n, dateParse s = some n ∧ n ≠ 0)
    (hTo : ∀ s ∈ filters.toBound, s ≠ "" ∧ ∃ n, dateParse s = some n ∧ n ≠ 0)
    (hTs : ∀ x ∈ log, ∃ t, dateParse x.timestamp = some t) :
    e ∈ getLogsFiltered dateParse log filters ↔
      (e ∈ log ∧
       (filters.userId ≠ [] → e.userId ∈ filters.userId) ∧
       (filters.actionType ≠ [] → e.actionType ∈ filters.actionType) ∧
       (filters.entity ≠ [] → e.entity ∈ filters.entity) ∧
       (∀ c ∈ filters.correlationId, e.correlationId = c) ∧
       (∀ n t, filters.fromBound.bind dateParse = some n →
         dateParse e.timestamp = some t → n ≤ t) ∧
       (∀ n t, filters.toBound.bind dateParse = some n →
         dateParse e.timestamp = some t → t ≤ n) ∧
       (∀ tx ∈ filters.text, jsIncludes (jsToLower (Json.stringify (entryToJson e))) tx
         = true)) := by
  have hUeq := normalize_filter_eq jsTrim filters.userId hU
  have hAeq := normalize_filter_eq (fun s => jsToUpper (jsTrim s)) filters.actionType hA
  have hEeq := normalize_filter_eq jsTrim filters.entity hE
  have hCeq := option_norm_eq jsTrim filters.correlationId fun c hc => (hC c hc).1
  have hTeq := option_norm_eq (fun s => jsToLower (jsTrim s)) filters.text hT
  simp only [getLogsFiltered]
  rw [hUeq, hAeq, hEeq, hCeq, hTeq, List.mem_filter]
  constructor
  · rintro ⟨hmem, hp⟩
    simp only [matchesFilters, Bool.and_eq_true] at hp
    obtain ⟨⟨⟨⟨⟨hu, ha⟩, hent⟩, hcid⟩, htime⟩, htext⟩ := hp
    have htb := (timePass_iff dateParse filters.fromBound filters.toBound e hF hTo
      (hTs e hmem)).1 htime
    exact ⟨hmem, (contains_pass_iff _ _).1 hu, (contains_pass_iff _ _).1 ha,
      (contains_pass_iff _ _).1 hent,
      (cid_pass_iff _ _ fun c hc => (hC c hc).2).1 hcid,
      htb.1, htb.2, (textPass_iff _ _).1 htext⟩
  · rintro ⟨hmem, hu, ha, hent, hcid, hf, hto, htext⟩
    refine ⟨hmem, ?_⟩
    simp only [matchesFilters, Bool.and_eq_true]
    exact ⟨⟨⟨⟨⟨(contains_pass_iff _ _).2 hu, (contains_pass_iff _ _).2 ha⟩,
      (contains_pass_iff _ _).2 hent⟩,
      (cid_pass_iff _ _ fun c hc => (hC c hc).2).2 hcid⟩,
      (timePass_iff dateParse filters.fromBound filters.toBound e hF hTo
        (hTs e hmem)).2 ⟨hf, hto⟩⟩,
      (textPass_iff _ _).2 htext⟩

/-- A well-formed concrete filter set: trimmed non-blank values, an
uppercase action type, a lowercase search text, and a parseable nonzero
`from` bound. -/
def witnessFilters : LogFilters :=
  { userId := ["u1"], actionType := ["CREATE"], entity := [],
    fromBound := some "1969-12-31T23:59:59.000Z", toBound := none,
    correlationId := some "corr_1", text := some "u1" }

/-- C4 witness: the filter characterization instantiated on a two-entry
log and the well-formed filter set `witnessFilters`, with every
well-formedness hypothesis discharged concretely. -/
theorem getLogsFiltered_mem_spec_inst :
    (∀ s ∈ witnessFilters.userId, jsTrim s = s ∧ s ≠ "") ∧
    (∀ s ∈ witnessFilters.actionType, jsToUpper (jsTrim s) = s ∧ s ≠ "") ∧
    (∀ s ∈ witnessFilters.entity, jsTrim s = s ∧ s ≠ "") ∧
    (∀ c ∈ witnessFilters.correlationId, jsTrim c = c ∧ c ≠ "") ∧
    (∀ t ∈ witnessFilters.text, jsToLower (jsTrim t) = t) ∧
    (∀ s ∈ witnessFilters.fromBound, s ≠ "" ∧ ∃ n, dateParseTest s = some n ∧ n ≠ 0) ∧
    (∀ s ∈ witnessFilters.toBound, s ≠ "" ∧ ∃ n, dateParseTest s = some n ∧ n ≠ 0) ∧
    (∀ x ∈ [testEntry, testEntryOld], ∃ t, dateParseTest x.timestamp = some t) ∧
    (testEntry ∈ getLogsFiltered dateParseTest [testEntry, testEntryOld] witnessFilters ↔
      (testEntry ∈ [testEntry, testEntryOld] ∧
       (witnessFilters.userId ≠ [] → testEntry.userId ∈ witnessFilters.userId) ∧
       (witnessFilters.actionType ≠ [] → testEntry.actionType ∈ witnessFilters.actionType) ∧
       (witnessFilters.entity ≠ [] → testEntry.entity ∈ witnessFilters.entity) ∧
       (∀ c ∈ witnessFilters.correlationId, testEntry.correlationId = c) ∧
       (∀ n t, witnessFilters.fromBound.bind dateParseTest = some n →
         dateParseTest testEntry.timestamp = some t → n ≤ t) ∧
       (∀ n t, witnessFilters.toBound.bind dateParseTest = some n →
         dateParseTest testEntry.timestamp = some t → t ≤ n) ∧
       (∀ tx ∈ witnessFilters.text,
         jsIncludes (jsToLower (Json.stringify (entryToJson testEntry))) tx = true))) := by
  have hU : ∀ s ∈ witnessFilters.userId, jsTrim s = s ∧ s ≠ "" := by decide
  have hA : ∀ s ∈ witnessFilters.actionType, jsToUpper (jsTrim s) = s ∧ s ≠ "" := by decide
  have hE : ∀ s ∈ witnessFilters.entity, jsTrim s = s ∧ s ≠ "" := by decide
  have hC : ∀ c ∈ witnessFilters.correlationId, jsTrim c = c ∧ c ≠ "" := by
    intro c hc
    rw [Option.mem_def] at hc
    injection hc with hc
    subst hc
    exact ⟨rfl, by decide⟩
  have hT : ∀ t ∈ witnessFilters.text, jsToLower (jsTrim t) = t := by
    intro t ht
    rw [Option.mem_def] at ht
    injection ht with ht
    subst ht
    rfl
  have hF : ∀ s ∈ witnessFilters.fromBound, s ≠ "" ∧ ∃ n, dateParseTest s = some n ∧ n ≠ 0 := by
    intro s hs
    rw [Option.mem_def] at hs
    injection hs with hs
    subst hs
    exact ⟨by decide, ⟨-1000, rfl, by decide⟩⟩
  have hTo : ∀ s ∈ witnessFilters.toBound, s ≠ "" ∧ ∃ n, dateParseTest s = some n ∧ n ≠ 0 := by
    intro s hs
    exact absurd hs (by simp [witnessFilters])
  have hTs : ∀ x ∈ [testEntry, testEntryOld], ∃ t, dateParseTest x.timestamp = some t := by
    intro x hx
    simp only [List.mem_cons, List.mem_singleton, List.not_mem_nil, or_false] at hx
    rcases hx with rfl | rfl
    · exact ⟨1704067200000, rfl⟩
    · exact ⟨-1000, rfl⟩
  exact ⟨hU, hA, hE, hC, hT, hF, hTo, hTs,
    getLogsFiltered_mem_spec dateParseTest [testEntry, testEntryOld] witnessFilters testEntry
      hU hA hE hC hT hF hTo hTs⟩
